import Mathlib

/-!
The conversation transcript lifecycle of buddy

A shallow embedding of `cmd/buddy/main.go`: the response sanitizer
(`cleanResponse`), the history conversion of `getConversationHistory`, and
the request handler (`Handler`) with its external collaborators (DynamoDB,
Bedrock, the JSON codec, the clock) taken as parameters.

Strings are sequences of Unicode code points.  The text handed to
`cleanResponse` comes out of `json.Unmarshal`, which only produces valid
UTF-8, so nothing is lost by working with code points instead of bytes.
-/

namespace Buddy

/-! ## Regular expressions of the sanitizer -/

/-- Go's `unicode.SimpleFold` on the orbits that meet the ASCII letters: every
ASCII letter is paired with its other case, except that the orbit of `s` also
holds U+017F (long s) and the orbit of `k` also holds U+212A (Kelvin sign).
Any other character is returned unchanged (it is never compared against a
pattern literal here, because all pattern literals are ASCII). -/
def simpleFold (c : Char) : Char :=
  if c = 'K' then 'k'
  else if c = 'k' then Char.ofNat 0x212A
  else if c = Char.ofNat 0x212A then 'K'
  else if c = 'S' then 's'
  else if c = 's' then Char.ofNat 0x17F
  else if c = Char.ofNat 0x17F then 'S'
  else if 65 ≤ c.toNat ∧ c.toNat ≤ 90 then Char.ofNat (c.toNat + 32)
  else if 97 ≤ c.toNat ∧ c.toNat ≤ 122 then Char.ofNat (c.toNat - 32)
  else c

/-- How Go's `regexp` compares a pattern literal `r0` with an input rune `r`
under the flag `(?i)`: equal, or equal to one of the other members of the
`SimpleFold` orbit of `r0` (orbits of ASCII characters have at most three
members). -/
def foldEq (r0 r : Char) : Bool :=
  r == r0 || r == simpleFold r0 || r == simpleFold (simpleFold r0)

/-- The case-insensitive literal `lit` matches at the start of the input. -/
def hasPrefixFold : List Char → List Char → Bool
  | [], _ => true
  | _ :: _, [] => false
  | p :: ps, c :: cs => foldEq p c && hasPrefixFold ps cs

/-- The three reserved markers. -/
def systemTag : List Char := "<|system|>".data
def userTag : List Char := "<|user|>".data
def assistantTag : List Char := "<|assistant|>".data

/-- Length of the match of `[\s\S]*?(?:t1|t2|$)` at the start of the input.
The lazy star tries the shortest span first: at each position the
alternatives are tried in order (`t1`, `t2`, end of text) and the first one
that succeeds ends the match. -/
def lazySpan (t1 t2 : List Char) : List Char → Nat
  | [] =>
    if hasPrefixFold t1 [] then t1.length
    else if hasPrefixFold t2 [] then t2.length
    else 0
  | c :: cs =>
    if hasPrefixFold t1 (c :: cs) then t1.length
    else if hasPrefixFold t2 (c :: cs) then t2.length
    else 1 + lazySpan t1 t2 cs

/-- A compiled pattern, as the length of its leftmost-first match anchored at
the start of the given input (`none` when it does not match there). -/
abbrev Pattern := List Char → Option Nat

/-- The pattern `(?i)<\|system\|>[\s\S]*?(?:<\|user\|>|<\|assistant\|>|$)` -/
def systemTagPattern : Pattern := fun s =>
  if hasPrefixFold systemTag s then
    some (systemTag.length + lazySpan userTag assistantTag (s.drop systemTag.length))
  else none

/-- The pattern `(?i)<\|user\|>[\s\S]*?(?:<\|system\|>|<\|assistant\|>|$)` -/
def userTagPattern : Pattern := fun s =>
  if hasPrefixFold userTag s then
    some (userTag.length + lazySpan systemTag assistantTag (s.drop userTag.length))
  else none

/-- The pattern `(?i)<\|assistant\|>` -/
def assistantTagPattern : Pattern := fun s =>
  if hasPrefixFold assistantTag s then some assistantTag.length else none

/-- The pattern `(?i)<\|(?:system|user|assistant)\|>` -/
def allTagsPattern : Pattern := fun s =>
  if hasPrefixFold systemTag s then some systemTag.length
  else if hasPrefixFold userTag s then some userTag.length
  else if hasPrefixFold assistantTag s then some assistantTag.length
  else none

/-- The scan of `Regexp.ReplaceAllString(src, "")`.  The first argument is the
number of characters still to delete from the match in progress.  Outside a
match the pattern is tried at the current position: a match of positive
length is deleted and the scan resumes right after it; otherwise the
character is copied and the scan moves one character on (which is also what
Go does after an empty match). -/
def replaceAllAux (re : Pattern) : Nat → List Char → List Char
  | _, [] => []
  | k + 1, _ :: cs => replaceAllAux re k cs
  | 0, c :: cs =>
    match re (c :: cs) with
    | some (n + 1) => replaceAllAux re n cs
    | some 0 => c :: replaceAllAux re 0 cs
    | none => c :: replaceAllAux re 0 cs

/-- The method `re.ReplaceAllString(src, "")`. -/
def replaceAllString (re : Pattern) (src : List Char) : List Char :=
  replaceAllAux re 0 src

/-- Go's `unicode.IsSpace`. -/
def isSpace (c : Char) : Bool :=
  let n := c.toNat
  (9 ≤ n && n ≤ 13) || n == 0x20 || n == 0x85 || n == 0xA0 || n == 0x1680 ||
  (0x2000 ≤ n && n ≤ 0x200A) || n == 0x2028 || n == 0x2029 || n == 0x202F ||
  n == 0x205F || n == 0x3000

/-- Go's `strings.TrimSpace`. -/
def trimSpace (s : List Char) : List Char :=
  (s.dropWhile isSpace).rdropWhile isSpace

/-- The function `cleanResponse`. -/
def cleanResponse (response : String) : String :=
  -- Remove any system message blocks completely
  let response := replaceAllString systemTagPattern response.data
  -- Remove any user message blocks completely
  let response := replaceAllString userTagPattern response
  -- Remove just the <|assistant|> tag
  let response := replaceAllString assistantTagPattern response
  -- Remove any remaining tags that might have been missed
  let response := replaceAllString allTagsPattern response
  -- Clean up extra whitespace
  String.mk (trimSpace response)

/-! ## Data model -/

structure Request where
  userID : String
  query : String
  conversationID : String
deriving DecidableEq, Repr

structure Response where
  conversationID : String
  response : String
deriving DecidableEq, Repr

structure ChatMessage where
  role : String
  content : String
deriving DecidableEq, Repr

structure LlamaRequest where
  prompt : String
  /-- The sampling temperature, in tenths (the handler always sends 0.5). -/
  temperatureTenths : Nat
deriving DecidableEq, Repr

structure LlamaResponse where
  generation : String
deriving DecidableEq, Repr

structure Message where
  conversationID : String
  messageID : String
  userID : String
  role : String
  content : String
  /-- The time of creation, in nanoseconds since the epoch. -/
  timestamp : Int
deriving DecidableEq, Repr

/-- The type `events.APIGatewayProxyResponse`, with the fields the handler sets. -/
structure APIGatewayProxyResponse where
  statusCode : Nat
  headers : List (String × String)
  body : String
deriving DecidableEq, Repr

/-- A DynamoDB item: attribute names with their values. -/
abbrev Item := List (String × String)

/-- The collaborators of the handler.  Each field is the outcome of one
external call, as a function of the arguments the handler passes to it. -/
structure Env where
  /-- The call `json.Unmarshal(request.Body, &req)`. -/
  unmarshalRequest : String → Except String Request
  /-- The call `config.LoadDefaultConfig`. -/
  loadDefaultConfig : Except String Unit
  /-- The reading `time.Now().UnixNano()` at each place the clock is read:
  0 when the conversation id is minted, 1 and 2 in the user-turn write, 3 and
  4 in the assistant-turn write. -/
  now : Nat → Int
  /-- The call `client.Query` for a user id and a conversation id. -/
  query : String → String → Except String (List Item)
  /-- The call `attributevalue.UnmarshalListOfMaps`. -/
  unmarshalListOfMaps : List Item → Except String (List Message)
  /-- The call `attributevalue.MarshalMap`. -/
  marshalMap : Message → Except String Item
  /-- The call `client.PutItem`; the first argument tells the user-turn write
  (0) from the assistant-turn write (1). -/
  putItem : Nat → Item → Except String Unit
  /-- The environment variable `BEDROCK_MODEL_ID`. -/
  bedrockModelID : String
  /-- The call `json.Marshal(llamaRequest)`; it cannot fail on a struct made of
  a string and a finite number, so the error branch after it is left out. -/
  marshalLlamaRequest : LlamaRequest → String
  /-- The call `bedrockClient.InvokeModel` for a model id and a request body. -/
  invokeModel : String → String → Except String String
  /-- The call `json.Unmarshal(invokeOutput.Body, &llamaResponse)`. -/
  unmarshalLlamaResponse : String → Except String LlamaResponse
  /-- The call `json.Marshal(response)`; it cannot fail on a struct made of
  two strings, so the error branch after it is left out. -/
  marshalResponse : Response → String

/-- What the handler does to the outside world, in the order it does it. -/
inductive Event where
  /-- A call of `getConversationHistory` with a user id and a conversation id. -/
  | getConversationHistory (userID conversationID : String)
  /-- A call of `attributevalue.MarshalMap` inside `storeMessage`, with the
  message it is given. -/
  | marshalMap (message : Message)
  /-- A call of `client.PutItem` inside `storeMessage`, with the item it is
  given; `call` is 0 in the user-turn write and 1 in the assistant-turn write. -/
  | putItem (call : Nat) (item : Item)
  /-- A line written with `log.Printf`. -/
  | log (line : String)
  /-- A call of `InvokeModel`: model id and request body. -/
  | invokeModel (modelID body : String)
deriving DecidableEq, Repr

/-! ## The handler -/

/-- The function `getConversationHistory`. -/
def getConversationHistory (env : Env) (userID conversationID : String) :
    Except String (List ChatMessage) :=
  match env.query userID conversationID with
  | .error err => .error err
  | .ok items =>
    match env.unmarshalListOfMaps items with
    | .error err => .error err
    | .ok messages =>
      -- Convert to ChatMessage format
      .ok (messages.foldl
        (fun chatMessages msg =>
          if msg.role = "user" ∨ msg.role = "assistant" then
            chatMessages ++ [{ role := msg.role, content := msg.content }]
          else chatMessages)
        [])

/-- The function `storeMessage`; `call` is 0 for the user turn and 1 for the
assistant turn.  The result is the error, if there is one, together with the
calls made on the store client, each with the argument it received. -/
def storeMessage (env : Env) (call : Nat) (userID conversationID role content : String) :
    Option String × List Event :=
  let messageID := "msg-" ++ toString (env.now (2 * call + 1))
  let timestamp := env.now (2 * call + 2)
  let message : Message :=
    { conversationID := conversationID, messageID := messageID, userID := userID,
      role := role, content := content, timestamp := timestamp }
  match env.marshalMap message with
  | .error err => (some err, [Event.marshalMap message])
  | .ok item =>
    match env.putItem call item with
    | .error err => (some err, [Event.marshalMap message, Event.putItem call item])
    | .ok _ => (none, [Event.marshalMap message, Event.putItem call item])

/-- The content of the system message defined in `Handler`. -/
def systemContent : String :=
  "You are a helpful CLI assistant specialized in Linux and terminal commands. Provide concise, accurate information and examples when asked. Be concise and never output a large wall of text that is hard to parse through for the user. Only respond to what the user is specifically asking about. Never assume or make up information about the user's environment or previous conversations. Only use information that the user has explicitly provided. DO NOT include any <|system|>, <|user|>, or <|assistant|> tags in your responses."

/-- The system message defined in `Handler`. -/
def systemMessage : ChatMessage := { role := "system", content := systemContent }

/-- One iteration of the loop of `Handler` that writes the turns into the
string builder. -/
def writeTurn (fullPrompt : String) (msg : ChatMessage) : String :=
  if msg.role = "user" then
    fullPrompt ++ "<|user|>\n" ++ msg.content ++ "\n"
  else if msg.role = "assistant" then
    fullPrompt ++ "<|assistant|>\n" ++ msg.content ++ "\n"
  else fullPrompt

/-- The prompt construction of `Handler`: the string builder after the
system block, the loop over `messages[1:]` and the final assistant marker. -/
def fullPrompt (messages : List ChatMessage) : String :=
  -- Start with system message
  let b := "" ++ "<|system|>\n" ++ systemMessage.content ++ "\n"
  -- Only add user and assistant messages from the history
  let b := (messages.drop 1).foldl writeTurn b
  -- Add final assistant turn marker
  b ++ "<|assistant|>\n"

/-- The transcript `messages` of `Handler` once the history and the new
user turn are appended to the system message. -/
def transcript (history : List ChatMessage) (query : String) : List ChatMessage :=
  ([systemMessage] ++ history) ++ [{ role := "user", content := query }]

/-- The headers of a successful response. -/
def okHeaders : List (String × String) :=
  [("Content-Type", "application/json"), ("Access-Control-Allow-Origin", "*")]

/-- The model id `Handler` reads from the environment, with its default. -/
def modelID (env : Env) : String :=
  if env.bedrockModelID = "" then "us.meta.llama3-3-70b-instruct-v1:0" else env.bedrockModelID

/-- The part of `Handler` that follows the transcript assembly: the user-turn
write, the prompt, the model call, the sanitizer, the assistant-turn write and
the result.  `trace` holds the events so far. -/
def handleTurn (env : Env) (req : Request) (conversationID : String)
    (messages : List ChatMessage) (trace : List Event) :
    APIGatewayProxyResponse × List Event :=
  -- Store the user's message in DynamoDB
  let stored := storeMessage env 0 req.userID conversationID "user" req.query
  let trace := trace ++ stored.2
  let trace :=
    match stored.1 with
    | some err => trace ++ [Event.log ("Failed to store user message: " ++ err)]
    | none => trace
  -- Prepare the Llama 3 request
  let llamaRequest : LlamaRequest := { prompt := fullPrompt messages, temperatureTenths := 5 }
  let reqJSON := env.marshalLlamaRequest llamaRequest
  let modelID := modelID env
  -- Invoke the model
  let trace := trace ++ [Event.invokeModel modelID reqJSON]
  match env.invokeModel modelID reqJSON with
  | .error err =>
    ({ statusCode := 500, headers := [],
       body := "Failed to invoke Bedrock model: " ++ err }, trace)
  | .ok output =>
    match env.unmarshalLlamaResponse output with
    | .error err =>
      ({ statusCode := 500, headers := [],
         body := "Failed to unmarshal Bedrock response: " ++ err }, trace)
    | .ok llamaResponse =>
      -- Clean the response before storing and returning
      let cleanedResponse := cleanResponse llamaResponse.generation
      -- Store the cleaned assistant's response in DynamoDB
      let stored := storeMessage env 1 req.userID conversationID "assistant" cleanedResponse
      let trace := trace ++ stored.2
      let trace :=
        match stored.1 with
        | some err => trace ++ [Event.log ("Failed to store assistant message: " ++ err)]
        | none => trace
      let response : Response :=
        { conversationID := conversationID, response := cleanedResponse }
      ({ statusCode := 200, headers := okHeaders, body := env.marshalResponse response }, trace)

/-- The function `Handler`, applied to the body of the request.  It returns
the response together with the events it caused. -/
def Handler (env : Env) (body : String) : APIGatewayProxyResponse × List Event :=
  match env.unmarshalRequest body with
  | .error err => ({ statusCode := 400, headers := [], body := "Invalid request: " ++ err }, [])
  | .ok req =>
    match env.loadDefaultConfig with
    | .error err =>
      ({ statusCode := 500, headers := [], body := "Failed to load AWS config: " ++ err }, [])
    | .ok _ =>
      if req.conversationID ≠ "" then
        match getConversationHistory env req.userID req.conversationID with
        | .error err =>
          ({ statusCode := 500, headers := [],
             body := "Failed to get conversation history: " ++ err },
           [Event.getConversationHistory req.userID req.conversationID])
        | .ok history =>
          handleTurn env req req.conversationID (transcript history req.query)
            [Event.getConversationHistory req.userID req.conversationID]
      else
        handleTurn env req ("conv-" ++ toString (env.now 0)) (transcript [] req.query) []

/-! ## Vocabulary of the properties -/

/-- The literal `tag` occurs in `s` up to letter case: some stretch of `s` has
the length of `tag` and agrees with it character by character under simple
case folding (the relation of Go's `strings.EqualFold`). -/
def OccursFold (tag s : List Char) : Prop :=
  ∃ pre mid suf, s = pre ++ mid ++ suf ∧ List.Forall₂ (fun p c => foldEq p c = true) tag mid

/-- The text holds none of the three markers, in any letter case. -/
def MarkerFree (x : String) : Prop :=
  ¬ OccursFold systemTag x.data ∧ ¬ OccursFold userTag x.data ∧
    ¬ OccursFold assistantTag x.data

/-- The conversation id `Handler` works with: the one of the request, or a
freshly minted one when the request has none. -/
def conversationIDOf (env : Env) (req : Request) : String :=
  if req.conversationID ≠ "" then req.conversationID else "conv-" ++ toString (env.now 0)

/-- The history load of `Handler`: the stored history when the request names
a conversation, no history otherwise. -/
def loadHistory (env : Env) (req : Request) : Except String (List ChatMessage) :=
  if req.conversationID ≠ "" then getConversationHistory env req.userID req.conversationID
  else .ok []

/-- The request body `Handler` sends to the model for a transcript. -/
def modelRequestBody (env : Env) (messages : List ChatMessage) : String :=
  env.marshalLlamaRequest { prompt := fullPrompt messages, temperatureTenths := 5 }

/-- The events that are model invocations. -/
def modelCalls (trace : List Event) : List Event :=
  trace.filter fun e => match e with
    | .invokeModel _ _ => true
    | _ => false

/-- The events that are calls made by a store write. -/
def storeCalls (trace : List Event) : List Event :=
  trace.filter fun e => match e with
    | .marshalMap _ => true
    | .putItem _ _ => true
    | _ => false

/-- A history as `getConversationHistory` returns it: every role is user or
assistant. -/
def WellFormed (history : List ChatMessage) : Prop :=
  ∀ t ∈ history, t.role = "user" ∨ t.role = "assistant"

/-- The block of one turn in the prompt grammar: role marker, line break,
content, line break. -/
def turnBlock (t : ChatMessage) : String :=
  "<|" ++ t.role ++ "|>\n" ++ t.content ++ "\n"

/-- Number of positions of `s` at which the literal `pat` starts (for a marker,
which cannot overlap itself, this is the number of its occurrences). -/
def countOccurrences (pat : List Char) : List Char → Nat
  | [] => if pat.isPrefixOf [] then 1 else 0
  | c :: cs => (if pat.isPrefixOf (c :: cs) then 1 else 0) + countOccurrences pat cs

/-- Stored rows of a sample conversation; two of them carry a role that is
neither user nor assistant. -/
def sampleRows : List Message :=
  [ { conversationID := "c1", messageID := "msg-1", userID := "u1", role := "user",
      content := "how do I list files", timestamp := 1 },
    { conversationID := "c1", messageID := "msg-2", userID := "u1", role := "system",
      content := "stray row", timestamp := 2 },
    { conversationID := "c1", messageID := "msg-3", userID := "u1", role := "assistant",
      content := "Use <|user|> ls", timestamp := 3 },
    { conversationID := "c1", messageID := "msg-4", userID := "u1", role := "tool",
      content := "other row", timestamp := 4 } ]

/-- A sample environment.  The request body is taken as the query of user `u1`
in conversation `c1`; the store answers the query for `c1` with `sampleRows`
and fails for any other conversation; the write of the user turn fails and
the write of the assistant turn succeeds; the model leaks markers around its
answer. -/
def sampleEnv : Env where
  unmarshalRequest := fun body => .ok { userID := "u1", query := body, conversationID := "c1" }
  loadDefaultConfig := .ok ()
  now := fun n => 1000 + n
  query := fun _ conversationID =>
    if conversationID = "c1" then .ok [[("rows", "c1")]] else .error "throttled"
  unmarshalListOfMaps := fun _ => .ok sampleRows
  marshalMap := fun m => .ok [("role", m.role), ("content", m.content)]
  putItem := fun call _ => if call = 0 then .error "write refused" else .ok ()
  bedrockModelID := ""
  marshalLlamaRequest := fun r => r.prompt
  invokeModel := fun _ _ => .ok "<|system|>leak<|assistant|>Hello there<|user|>ignored"
  unmarshalLlamaResponse := fun out => .ok { generation := out }
  marshalResponse := fun r => r.conversationID ++ ": " ++ r.response

/-- The sample environment with a request that names a conversation the store
cannot read. -/
def sampleEnvReadFailure : Env :=
  { sampleEnv with
    unmarshalRequest := fun body =>
      .ok { userID := "u1", query := body, conversationID := "c2" } }

/-- The history `getConversationHistory` makes of `sampleRows`. -/
def sampleHistory : List ChatMessage :=
  [{ role := "user", content := "how do I list files" },
   { role := "assistant", content := "Use <|user|> ls" }]

/-- The request the sample environment reads from the body `list files`. -/
def sampleRequest : Request :=
  { userID := "u1", query := "list files", conversationID := "c1" }

/-- The leaking model output of the sample environment. -/
def sampleOutput : String := "<|system|>leak<|assistant|>Hello there<|user|>ignored"

/-- The blocks of the prompt for a history and a query, as the
specification lists them: the system block, one block per turn of the
history, the block of the new user turn, the empty assistant marker. -/
def promptBlocks (history : List ChatMessage) (query : String) : List String :=
  turnBlock systemMessage ::
    ((history ++ [({ role := "user", content := query } : ChatMessage)]).map turnBlock ++
      ["<|assistant|>\n"])

/-! ## The sanitizer on text without markers -/

theorem split_of_hasPrefixFold (tag : List Char) :
    ∀ s : List Char, hasPrefixFold tag s = true →
      ∃ mid suf, s = mid ++ suf ∧ List.Forall₂ (fun p c => foldEq p c = true) tag mid := by
  induction tag with
  | nil => intro s _; exact ⟨[], s, by simp, List.Forall₂.nil⟩
  | cons p ps ih =>
    intro s hs
    cases s with
    | nil => simp [hasPrefixFold] at hs
    | cons c cs =>
      simp only [hasPrefixFold, Bool.and_eq_true] at hs
      obtain ⟨mid, suf, hcs, hmid⟩ := ih cs hs.2
      exact ⟨c :: mid, suf, by simp [hcs], List.Forall₂.cons hs.1 hmid⟩

theorem occursFold_of_hasPrefixFold (tag s : List Char) (h : hasPrefixFold tag s = true) :
    OccursFold tag s := by
  obtain ⟨mid, suf, hs, hmid⟩ := split_of_hasPrefixFold tag s h
  exact ⟨[], mid, suf, by simp [hs], hmid⟩

theorem replaceAllAux_of_no_match (re : Pattern) :
    ∀ s : List Char, (∀ pre suf, s = pre ++ suf → re suf = none) →
      replaceAllAux re 0 s = s := by
  intro s
  induction s with
  | nil => intro _; rfl
  | cons c cs ih =>
    intro h
    have h0 : re (c :: cs) = none := h [] (c :: cs) rfl
    have ht : replaceAllAux re 0 cs = cs :=
      ih (fun pre suf hps => h (c :: pre) suf (by simp [hps]))
    simp [replaceAllAux, h0, ht]

theorem hasPrefixFold_suffix_false (tag s : List Char) (h : ¬ OccursFold tag s)
    (pre suf : List Char) (hs : s = pre ++ suf) : hasPrefixFold tag suf = false := by
  by_contra hne
  have hp : hasPrefixFold tag suf = true := by simpa using hne
  obtain ⟨p2, mid, s2, hsuf, hmid⟩ := occursFold_of_hasPrefixFold tag suf hp
  exact h ⟨pre ++ p2, mid, s2, by simp [hs, hsuf], hmid⟩

theorem hasPrefixFold_of_forall₂ (tag mid suf : List Char)
    (h : List.Forall₂ (fun p c => foldEq p c = true) tag mid) :
    hasPrefixFold tag (mid ++ suf) = true := by
  induction h with
  | nil => simp [hasPrefixFold]
  | cons hpc _ ih => simp [hasPrefixFold, hpc, ih]

/-- A decision procedure for `OccursFold`: try the literal at every suffix. -/
theorem not_occursFold_of_tails (tag s : List Char)
    (h : s.tails.any (hasPrefixFold tag) = false) : ¬ OccursFold tag s := by
  rintro ⟨pre, mid, suf, hs, hmid⟩
  have hmem : mid ++ suf ∈ s.tails := by
    rw [List.mem_tails]
    exact ⟨pre, by simp [hs]⟩
  have htrue : s.tails.any (hasPrefixFold tag) = true :=
    List.any_eq_true.mpr ⟨mid ++ suf, hmem, hasPrefixFold_of_forall₂ tag mid suf hmid⟩
  rw [h] at htrue
  exact Bool.false_ne_true htrue

theorem replaceAllString_systemTagPattern_of_free (s : List Char)
    (h : ¬ OccursFold systemTag s) : replaceAllString systemTagPattern s = s := by
  apply replaceAllAux_of_no_match
  intro pre suf hs
  simp [systemTagPattern, hasPrefixFold_suffix_false systemTag s h pre suf hs]

theorem replaceAllString_userTagPattern_of_free (s : List Char)
    (h : ¬ OccursFold userTag s) : replaceAllString userTagPattern s = s := by
  apply replaceAllAux_of_no_match
  intro pre suf hs
  simp [userTagPattern, hasPrefixFold_suffix_false userTag s h pre suf hs]

theorem replaceAllString_assistantTagPattern_of_free (s : List Char)
    (h : ¬ OccursFold assistantTag s) : replaceAllString assistantTagPattern s = s := by
  apply replaceAllAux_of_no_match
  intro pre suf hs
  simp [assistantTagPattern, hasPrefixFold_suffix_false assistantTag s h pre suf hs]

theorem replaceAllString_allTagsPattern_of_free (s : List Char)
    (h1 : ¬ OccursFold systemTag s) (h2 : ¬ OccursFold userTag s)
    (h3 : ¬ OccursFold assistantTag s) : replaceAllString allTagsPattern s = s := by
  apply replaceAllAux_of_no_match
  intro pre suf hs
  simp [allTagsPattern, hasPrefixFold_suffix_false systemTag s h1 pre suf hs,
    hasPrefixFold_suffix_false userTag s h2 pre suf hs,
    hasPrefixFold_suffix_false assistantTag s h3 pre suf hs]

/-! ## Claims about the sanitizer -/

/-- C10: on a text that holds none of the three markers in any letter case,
`cleanResponse` returns the text with its leading and trailing whitespace
removed, and changes nothing else. -/
theorem cleanResponse_of_markerFree (x : String) (h : MarkerFree x) :
    cleanResponse x = String.mk (trimSpace x.data) := by
  obtain ⟨h1, h2, h3⟩ := h
  simp only [cleanResponse]
  rw [replaceAllString_systemTagPattern_of_free _ h1,
    replaceAllString_userTagPattern_of_free _ h2,
    replaceAllString_assistantTagPattern_of_free _ h3,
    replaceAllString_allTagsPattern_of_free _ h1 h2 h3]

/-- C10 at a text with inner whitespace and a broken marker. -/
theorem cleanResponse_of_markerFree_witness :
    MarkerFree " \n ls  -la <|user |> <system>\t\n" ∧
    cleanResponse " \n ls  -la <|user |> <system>\t\n" = "ls  -la <|user |> <system>" :=
  have hfree : MarkerFree " \n ls  -la <|user |> <system>\t\n" :=
    ⟨not_occursFold_of_tails _ _ (by decide), not_occursFold_of_tails _ _ (by decide),
      not_occursFold_of_tails _ _ (by decide)⟩
  ⟨hfree, (cleanResponse_of_markerFree _ hfree).trans (by decide)⟩

/-- C3: the leaked system block up to and including the assistant marker and
the leaked user block through the end of the text are removed from the
example of the specification, which leaves exactly `Hello there`. -/
theorem cleanResponse_example :
    cleanResponse "<|system|>leak<|assistant|>Hello there<|user|>ignored" = "Hello there" := by
  decide

/-- C1 fails: deleting the markers of the third and fourth pass joins the
text around them, and here the joined text is itself a system marker, which
no later pass removes; the output is exactly `<|system|>`. -/
theorem cleanResponse_leaves_marker :
    cleanResponse "<|sys<|sys<|assistant|>tem|>tem|>" = "<|system|>" ∧
    systemTag <:+: (cleanResponse "<|sys<|sys<|assistant|>tem|>tem|>").data := by
  have h : cleanResponse "<|sys<|sys<|assistant|>tem|>tem|>" = "<|system|>" := by decide
  exact ⟨h, by rw [h]; exact List.infix_refl _⟩

/-- C2 fails: on the output `<|user|>` of a first run, a second run
removes the marker and returns the empty text. -/
theorem cleanResponse_not_idempotent :
    cleanResponse "<|us<|us<|assistant|>er|>er|>" = "<|user|>" ∧
    cleanResponse (cleanResponse "<|us<|us<|assistant|>er|>er|>") = "" ∧
    cleanResponse (cleanResponse "<|us<|us<|assistant|>er|>er|>") ≠
      cleanResponse "<|us<|us<|assistant|>er|>er|>" := by
  have h : cleanResponse "<|us<|us<|assistant|>er|>er|>" = "<|user|>" := by decide
  have h2 : cleanResponse "<|user|>" = "" := by decide
  refine ⟨h, by rw [h, h2], ?_⟩
  rw [h, h2]
  decide

/-! ## Claims about the history -/

theorem foldl_history (rows : List Message) (acc : List ChatMessage) :
    rows.foldl
        (fun chatMessages msg =>
          if msg.role = "user" ∨ msg.role = "assistant" then
            chatMessages ++ [({ role := msg.role, content := msg.content } : ChatMessage)]
          else chatMessages)
        acc =
      acc ++ (rows.filter fun m => decide (m.role = "user" ∨ m.role = "assistant")).map
        fun m => ({ role := m.role, content := m.content } : ChatMessage) := by
  induction rows generalizing acc with
  | nil => simp
  | cons m ms ih =>
    by_cases hm : m.role = "user" ∨ m.role = "assistant"
    · simp [List.foldl, ih, hm, List.filter_cons]
    · simp [List.foldl, ih, hm, List.filter_cons]

/-- C8: when the store query returns the rows `rows`, the history of
`getConversationHistory` is the rows whose role is user or assistant, in the
order of the store, each with its role and content unchanged; the rows of any
other role are dropped. -/
theorem getConversationHistory_eq_filter (env : Env) (userID conversationID : String)
    (items : List Item) (rows : List Message)
    (hquery : env.query userID conversationID = .ok items)
    (hrows : env.unmarshalListOfMaps items = .ok rows) :
    getConversationHistory env userID conversationID =
      .ok ((rows.filter fun m => decide (m.role = "user" ∨ m.role = "assistant")).map
        fun m => { role := m.role, content := m.content }) := by
  simp only [getConversationHistory, hquery, hrows]
  rw [foldl_history]
  simp

/-- C8 on the sample rows: the two rows of a foreign role are dropped and the
other two keep their order and content. -/
theorem getConversationHistory_eq_filter_witness :
    getConversationHistory sampleEnv "u1" "c1" =
      .ok [{ role := "user", content := "how do I list files" },
           { role := "assistant", content := "Use <|user|> ls" }] :=
  (getConversationHistory_eq_filter sampleEnv "u1" "c1" [[("rows", "c1")]] sampleRows
    rfl rfl).trans (congrArg Except.ok (by decide))

/-! ## Claims about the handler -/

/-- C6: when the request names a conversation and its history cannot be
fetched, `Handler` answers with status 500 and causes no event besides the
fetch: no model invocation, no store write, no log line.  Once the
configuration is loaded the answer is the fetch error and the only event is
the fetch. -/
theorem Handler_history_failure (env : Env) (body : String) (req : Request) (err : String)
    (hreq : env.unmarshalRequest body = .ok req)
    (hid : req.conversationID ≠ "")
    (hfail : getConversationHistory env req.userID req.conversationID = .error err) :
    (Handler env body).1.statusCode = 500 ∧
    modelCalls (Handler env body).2 = [] ∧
    storeCalls (Handler env body).2 = [] ∧
    (∀ e ∈ (Handler env body).2,
      e = Event.getConversationHistory req.userID req.conversationID) ∧
    (env.loadDefaultConfig = .ok () →
      Handler env body =
        ({ statusCode := 500, headers := [],
           body := "Failed to get conversation history: " ++ err },
         [Event.getConversationHistory req.userID req.conversationID])) := by
  cases hcfg : env.loadDefaultConfig with
  | error e => simp [Handler, hreq, hcfg, modelCalls, storeCalls]
  | ok u => simp [Handler, hreq, hcfg, hid, hfail, modelCalls, storeCalls]

/-- C6 on the sample request for a conversation the store cannot read. -/
theorem Handler_history_failure_witness :
    Handler sampleEnvReadFailure "list files" =
      ({ statusCode := 500, headers := [],
         body := "Failed to get conversation history: throttled" },
       [Event.getConversationHistory "u1" "c2"]) :=
  (Handler_history_failure sampleEnvReadFailure "list files"
    { userID := "u1", query := "list files", conversationID := "c2" } "throttled"
    rfl (by decide) rfl).2.2.2.2 rfl

theorem handleTurn_fst (env : Env) (req : Request) (conversationID : String)
    (messages : List ChatMessage) (trace : List Event) (output generation : String)
    (hinvoke : env.invokeModel (modelID env) (modelRequestBody env messages) = .ok output)
    (hparse : env.unmarshalLlamaResponse output = .ok { generation := generation }) :
    (handleTurn env req conversationID messages trace).1 =
      { statusCode := 200, headers := okHeaders,
        body := env.marshalResponse
          { conversationID := conversationID, response := cleanResponse generation } } := by
  simp only [modelRequestBody] at hinvoke
  simp only [handleTurn, hinvoke, hparse]

theorem storeMessage_events (env : Env) (call : Nat)
    (userID conversationID role content : String) :
    (storeMessage env call userID conversationID role content).2 =
      Event.marshalMap
          { conversationID := conversationID,
            messageID := "msg-" ++ toString (env.now (2 * call + 1)),
            userID := userID, role := role, content := content,
            timestamp := env.now (2 * call + 2) } ::
        (match env.marshalMap
            { conversationID := conversationID,
              messageID := "msg-" ++ toString (env.now (2 * call + 1)),
              userID := userID, role := role, content := content,
              timestamp := env.now (2 * call + 2) } with
          | .ok item => [Event.putItem call item]
          | .error _ => []) := by
  simp only [storeMessage]
  split
  · next h => simp [h]
  · next h => split <;> simp [h]

theorem storeCalls_storeMessage (env : Env) (call : Nat)
    (userID conversationID role content : String) :
    storeCalls (storeMessage env call userID conversationID role content).2 =
      (storeMessage env call userID conversationID role content).2 := by
  rw [storeMessage_events]
  split <;> simp [storeCalls]

theorem handleTurn_storeCalls (env : Env) (req : Request) (conversationID : String)
    (messages : List ChatMessage) (trace : List Event) (output generation : String)
    (hinvoke : env.invokeModel (modelID env) (modelRequestBody env messages) = .ok output)
    (hparse : env.unmarshalLlamaResponse output = .ok { generation := generation }) :
    storeCalls (handleTurn env req conversationID messages trace).2 =
      storeCalls trace ++
        ((storeMessage env 0 req.userID conversationID "user" req.query).2 ++
         (storeMessage env 1 req.userID conversationID "assistant"
           (cleanResponse generation)).2) := by
  have hs : ∀ l1 l2 : List Event, storeCalls (l1 ++ l2) = storeCalls l1 ++ storeCalls l2 :=
    fun l1 l2 => by simp [storeCalls, List.filter_append]
  have hnil : storeCalls [] = [] := rfl
  have hlog : ∀ (line : String) (t : List Event),
      storeCalls (Event.log line :: t) = storeCalls t := fun _ _ => rfl
  have hinv : ∀ (a b : String) (t : List Event),
      storeCalls (Event.invokeModel a b :: t) = storeCalls t := fun _ _ _ => rfl
  simp only [modelRequestBody] at hinvoke
  simp only [handleTurn, hinvoke, hparse]
  split <;> split <;> simp [hs, hnil, hlog, hinv, storeCalls_storeMessage]

/-- The handler after a successful start: it runs `handleTurn` on the
transcript of the loaded history. -/
theorem Handler_eq_handleTurn (env : Env) (body : String) (req : Request)
    (history : List ChatMessage)
    (hreq : env.unmarshalRequest body = .ok req)
    (hcfg : env.loadDefaultConfig = .ok ())
    (hhist : loadHistory env req = .ok history) :
    Handler env body =
      handleTurn env req (conversationIDOf env req) (transcript history req.query)
        (if req.conversationID ≠ "" then
          [Event.getConversationHistory req.userID req.conversationID] else []) := by
  by_cases hid : req.conversationID = ""
  · have hh : history = [] := by
      simp only [loadHistory, hid, ne_eq, not_true_eq_false, if_false] at hhist
      exact (Except.ok.inj hhist).symm
    simp [Handler, hreq, hcfg, hid, conversationIDOf, hh]
  · have hh : getConversationHistory env req.userID req.conversationID = .ok history := by
      simpa [loadHistory, hid] using hhist
    simp [Handler, hreq, hcfg, hid, conversationIDOf, hh]

/-- C9: when the history load, the model invocation and the parsing of its
output succeed, the response carries `cleanResponse` of the generation, and
the calls the two store writes make on the store client are exactly these,
in this order: `MarshalMap` receives the user message whose content is the
query of the request unchanged, `PutItem` receives the item made of it (when
there is one), then `MarshalMap` receives the assistant message whose content
is that same sanitized text, and `PutItem` the item made of it.  No other
message or item reaches the store, so the raw generation never does. -/
theorem Handler_sanitizes_before_store (env : Env)
    (body : String) (req : Request) (history : List ChatMessage) (output generation : String)
    (hreq : env.unmarshalRequest body = .ok req)
    (hcfg : env.loadDefaultConfig = .ok ())
    (hhist : loadHistory env req = .ok history)
    (hinvoke : env.invokeModel (modelID env)
      (modelRequestBody env (transcript history req.query)) = .ok output)
    (hparse : env.unmarshalLlamaResponse output = .ok { generation := generation }) :
    (Handler env body).1.statusCode = 200 ∧
    (Handler env body).1.body =
      env.marshalResponse
        { conversationID := conversationIDOf env req, response := cleanResponse generation } ∧
    storeCalls (Handler env body).2 =
      (Event.marshalMap
          { conversationID := conversationIDOf env req,
            messageID := "msg-" ++ toString (env.now 1),
            userID := req.userID, role := "user", content := req.query,
            timestamp := env.now 2 } ::
        (match env.marshalMap
            { conversationID := conversationIDOf env req,
              messageID := "msg-" ++ toString (env.now 1),
              userID := req.userID, role := "user", content := req.query,
              timestamp := env.now 2 } with
          | .ok item => [Event.putItem 0 item]
          | .error _ => [])) ++
      (Event.marshalMap
          { conversationID := conversationIDOf env req,
            messageID := "msg-" ++ toString (env.now 3),
            userID := req.userID, role := "assistant",
            content := cleanResponse generation,
            timestamp := env.now 4 } ::
        (match env.marshalMap
            { conversationID := conversationIDOf env req,
              messageID := "msg-" ++ toString (env.now 3),
              userID := req.userID, role := "assistant",
              content := cleanResponse generation,
              timestamp := env.now 4 } with
          | .ok item => [Event.putItem 1 item]
          | .error _ => [])) := by
  rw [Handler_eq_handleTurn env body req history hreq hcfg hhist]
  rw [handleTurn_fst env req _ _ _ output generation hinvoke hparse,
    handleTurn_storeCalls env req _ _ _ output generation hinvoke hparse]
  refine ⟨rfl, rfl, ?_⟩
  have h0 : storeCalls (if req.conversationID ≠ "" then
      [Event.getConversationHistory req.userID req.conversationID] else []) = [] := by
    split <;> simp [storeCalls]
  rw [h0, storeMessage_events, storeMessage_events]
  rfl

/-- C9 on the sample request: the raw generation leaks three markers, and the
message and the item that reach the store for the assistant turn hold the
sanitized `Hello there`. -/
theorem Handler_sanitizes_before_store_witness :
    storeCalls (Handler sampleEnv "list files").2 =
      [Event.marshalMap
         { conversationID := "c1", messageID := "msg-1001", userID := "u1", role := "user",
           content := "list files", timestamp := 1002 },
       Event.putItem 0 [("role", "user"), ("content", "list files")],
       Event.marshalMap
         { conversationID := "c1", messageID := "msg-1003", userID := "u1",
           role := "assistant", content := "Hello there", timestamp := 1004 },
       Event.putItem 1 [("role", "assistant"), ("content", "Hello there")]] :=
  (Handler_sanitizes_before_store sampleEnv "list files" sampleRequest sampleHistory
    sampleOutput "<|system|>leak<|assistant|>Hello there<|user|>ignored"
    rfl rfl rfl rfl rfl).2.2.trans (by decide)

/-! ## Claims about the prompt -/

theorem writeTurn_of_role (b : String) (t : ChatMessage)
    (h : t.role = "user" ∨ t.role = "assistant") : writeTurn b t = b ++ turnBlock t := by
  apply String.ext
  rcases h with h | h
  · simp [writeTurn, turnBlock, h]
  · have hne : ¬ ("assistant" = "user") := by decide
    simp [writeTurn, turnBlock, h, hne]

theorem foldl_writeTurn (l : List ChatMessage) (hl : WellFormed l) (b : String) :
    l.foldl writeTurn b = b ++ String.join (l.map turnBlock) := by
  induction l generalizing b with
  | nil => apply String.ext; simp
  | cons t ts ih =>
    have ht : t.role = "user" ∨ t.role = "assistant" := hl t (List.mem_cons_self t ts)
    have hts : WellFormed ts := fun x hx => hl x (List.mem_cons_of_mem t hx)
    rw [List.foldl_cons, writeTurn_of_role b t ht, ih hts]
    apply String.ext
    simp

theorem wellFormed_append_user (h : List ChatMessage) (q : String) (hh : WellFormed h) :
    WellFormed (h ++ [{ role := "user", content := q }]) := by
  intro t ht
  rcases List.mem_append.mp ht with h1 | h1
  · exact hh t h1
  · left
    have : t = { role := "user", content := q } := by simpa using h1
    rw [this]

/-- C5: for a history of user and assistant turns and a query, the prompt
is the system block, then the block of every turn of the history in order
and of the new user turn, each with its content as it is, then the empty
assistant block at the very end. -/
theorem fullPrompt_eq (h : List ChatMessage) (q : String) (hh : WellFormed h) :
    fullPrompt (transcript h q) =
      "<|system|>\n" ++ systemContent ++ "\n" ++
        String.join ((h ++ [({ role := "user", content := q } : ChatMessage)]).map turnBlock) ++
        "<|assistant|>\n" := by
  have hdrop : (transcript h q).drop 1 = h ++ [{ role := "user", content := q }] := by
    simp [transcript]
  simp only [fullPrompt, hdrop]
  rw [foldl_writeTurn _ (wellFormed_append_user h q hh)]
  apply String.ext
  simp [systemMessage]

/-- C5 on the sample history, whose assistant turn holds a user marker: the
marker is emitted as it stands, inside the block of that turn. -/
theorem fullPrompt_eq_witness :
    fullPrompt (transcript sampleHistory "list <|system|> files") =
      "<|system|>\n" ++ systemContent ++ "\n" ++
        "<|user|>\nhow do I list files\n<|assistant|>\nUse <|user|> ls\n<|user|>\nlist <|system|> files\n" ++
        "<|assistant|>\n" :=
  (fullPrompt_eq sampleHistory "list <|system|> files"
    (by simp [WellFormed, sampleHistory])).trans
    (congrArg (fun blocks => "<|system|>\n" ++ systemContent ++ "\n" ++ blocks ++ "<|assistant|>\n")
      (by decide))

theorem isPrefixOf_append_newline (pat : List Char) (hpat : '\n' ∉ pat) :
    ∀ a b : List Char, pat.isPrefixOf (a ++ '\n' :: b) = pat.isPrefixOf a := by
  induction pat with
  | nil => intro a b; simp
  | cons p ps ih =>
    intro a b
    have hp : p ≠ '\n' := fun hEq => hpat (by simp [hEq])
    have hps : '\n' ∉ ps := fun hmem => hpat (List.mem_cons_of_mem p hmem)
    cases a with
    | nil => simp [List.isPrefixOf, hp]
    | cons c cs => simp [List.isPrefixOf, ih hps cs b]

theorem countOccurrences_append_newline (pat : List Char) (hpat : '\n' ∉ pat)
    (a b : List Char) :
    countOccurrences pat (a ++ '\n' :: b) = countOccurrences pat a + countOccurrences pat b := by
  induction a with
  | nil =>
    have h := isPrefixOf_append_newline pat hpat [] b
    simp only [List.nil_append] at h
    simp [countOccurrences, h]
  | cons c cs ih =>
    have h := isPrefixOf_append_newline pat hpat (c :: cs) b
    show (if pat.isPrefixOf ((c :: cs) ++ '\n' :: b) then 1 else 0) +
        countOccurrences pat (cs ++ '\n' :: b) =
      ((if pat.isPrefixOf (c :: cs) then 1 else 0) + countOccurrences pat cs) +
        countOccurrences pat b
    rw [h, ih]
    omega

theorem turnBlock_data (t : ChatMessage) (h : t.role = "user" ∨ t.role = "assistant") :
    ∃ hdr : List Char, countOccurrences systemTag hdr = 0 ∧ systemTag.isPrefixOf hdr = false ∧
      (turnBlock t).data = hdr ++ '\n' :: (t.content.data ++ ['\n']) := by
  rcases h with h | h
  · exact ⟨userTag, by decide, by decide, by simp [turnBlock, h, userTag]⟩
  · exact ⟨assistantTag, by decide, by decide, by simp [turnBlock, h, assistantTag]⟩

theorem countOccurrences_blocks (l : List ChatMessage) (hl : WellFormed l) (rest : List Char) :
    countOccurrences systemTag ((l.map fun t => (turnBlock t).data).flatten ++ rest) =
      (l.map fun t => countOccurrences systemTag t.content.data).sum +
        countOccurrences systemTag rest := by
  have hnl : '\n' ∉ systemTag := by decide
  induction l with
  | nil => simp
  | cons t ts ih =>
    have ht : t.role = "user" ∨ t.role = "assistant" := hl t (List.mem_cons_self t ts)
    have hts : WellFormed ts := fun x hx => hl x (List.mem_cons_of_mem t hx)
    obtain ⟨hdr, hc, _, hd⟩ := turnBlock_data t ht
    have hshape : ((t :: ts).map fun t => (turnBlock t).data).flatten ++ rest =
        hdr ++ '\n' :: (t.content.data ++ '\n' ::
          ((ts.map fun t => (turnBlock t).data).flatten ++ rest)) := by
      simp [hd]
    rw [hshape, countOccurrences_append_newline _ hnl, countOccurrences_append_newline _ hnl,
      ih hts, hc]
    simp only [List.map_cons, List.sum_cons]
    omega

theorem fullPrompt_data (h : List ChatMessage) (q : String) (hh : WellFormed h) :
    (fullPrompt (transcript h q)).data =
      systemTag ++ '\n' :: (systemContent.data ++ '\n' ::
        (((h ++ [({ role := "user", content := q } : ChatMessage)]).map
            fun t => (turnBlock t).data).flatten ++ (assistantTag ++ '\n' :: []))) := by
  rw [fullPrompt_eq h q hh]
  have e1 : ("<|system|>\n" : String).data = systemTag ++ ['\n'] := rfl
  have e2 : ("<|assistant|>\n" : String).data = assistantTag ++ ['\n'] := rfl
  have e3 : ("\n" : String).data = ['\n'] := rfl
  simp only [String.data_append, String.data_join, e1, e2, e3, List.map_map]
  simp [Function.comp_def]
  rfl

set_option maxRecDepth 100000 in
theorem countOccurrences_systemContent :
    countOccurrences systemTag systemContent.data = 1 := by
  decide

theorem countOccurrences_fullPrompt (h : List ChatMessage) (q : String) (hh : WellFormed h) :
    countOccurrences systemTag (fullPrompt (transcript h q)).data =
      2 + ((h ++ [({ role := "user", content := q } : ChatMessage)]).map
        fun t => countOccurrences systemTag t.content.data).sum := by
  have hnl : '\n' ∉ systemTag := by decide
  have h1 : countOccurrences systemTag systemTag = 1 := by decide
  have h2 : countOccurrences systemTag (assistantTag ++ '\n' :: []) = 0 := by decide
  rw [fullPrompt_data h q hh, countOccurrences_append_newline _ hnl,
    countOccurrences_append_newline _ hnl,
    countOccurrences_blocks _ (wellFormed_append_user h q hh), h1, h2,
    countOccurrences_systemContent]
  omega

theorem turnBlock_not_system (t : ChatMessage) (h : t.role = "user" ∨ t.role = "assistant") :
    systemTag.isPrefixOf (turnBlock t).data = false := by
  obtain ⟨hdr, _, hp, hd⟩ := turnBlock_data t h
  rw [hd, isPrefixOf_append_newline systemTag (by decide), hp]

theorem filter_system_blocks (l : List ChatMessage) (hl : WellFormed l) :
    (l.map turnBlock).filter (fun b => systemTag.isPrefixOf b.data) = [] := by
  rw [List.filter_eq_nil_iff]
  intro b hb
  obtain ⟨t, ht, rfl⟩ := List.mem_map.mp hb
  simp [turnBlock_not_system t (hl t ht)]

theorem turnBlock_systemMessage_starts :
    systemTag.isPrefixOf (turnBlock systemMessage).data = true := by
  have hd : (turnBlock systemMessage).data =
      systemTag ++ ('\n' :: (systemContent.data ++ ['\n'])) := by
    simp [turnBlock, systemMessage, systemTag]
  rw [hd, List.isPrefixOf_iff_prefix]
  exact List.prefix_append _ _

/-- C4, as the code has it: for a history of user and assistant turns and a
query, the prompt is the concatenation of the system block, one block per
turn of the history in order, the block of the new user turn and the empty
assistant marker; exactly one of these blocks starts with the system marker.
Counted on the text of the prompt, the system marker occurs twice (as the
header of the system block and inside the system content, which quotes it)
plus once for every occurrence in the contents of the turns, which are
emitted as they are. -/
theorem fullPrompt_blocks (h : List ChatMessage) (q : String) (hh : WellFormed h) :
    fullPrompt (transcript h q) = String.join (promptBlocks h q) ∧
    (promptBlocks h q).length = h.length + 3 ∧
    (promptBlocks h q).getLast? = some "<|assistant|>\n" ∧
    ((promptBlocks h q).filter fun b => systemTag.isPrefixOf b.data).length = 1 ∧
    countOccurrences systemTag (fullPrompt (transcript h q)).data =
      2 + ((h ++ [({ role := "user", content := q } : ChatMessage)]).map
        fun t => countOccurrences systemTag t.content.data).sum := by
  refine ⟨?_, ?_, ?_, ?_, countOccurrences_fullPrompt h q hh⟩
  · rw [fullPrompt_eq h q hh]
    apply String.ext
    simp [promptBlocks, turnBlock, systemMessage]
  · simp [promptBlocks]
  · have hshape : promptBlocks h q =
        (turnBlock systemMessage ::
          (h ++ [({ role := "user", content := q } : ChatMessage)]).map turnBlock) ++
          ["<|assistant|>\n"] := by
      simp [promptBlocks]
    rw [hshape, List.getLast?_concat]
  · have hfinal : systemTag.isPrefixOf ("<|assistant|>\n" : String).data = false := by decide
    simp only [promptBlocks, List.filter_cons, turnBlock_systemMessage_starts, if_true,
      List.filter_append, filter_system_blocks _ (wellFormed_append_user h q hh),
      List.nil_append, List.filter_nil, hfinal]
    simp

/-- C4 on the sample history and a query that quotes the system marker: five
blocks, and three occurrences of the system marker in the text. -/
theorem fullPrompt_blocks_witness :
    (promptBlocks sampleHistory "list <|system|> files").length = 5 ∧
    countOccurrences systemTag
      (fullPrompt (transcript sampleHistory "list <|system|> files")).data = 3 :=
  have h := fullPrompt_blocks sampleHistory "list <|system|> files"
    (by simp [WellFormed, sampleHistory])
  ⟨h.2.1.trans (by decide), h.2.2.2.2.trans (by decide)⟩

/-- C4 fails as stated: with no history and the query `list files`, the
system marker occurs twice in the text of the prompt, not once. -/
theorem fullPrompt_system_marker_twice :
    WellFormed [] ∧
    countOccurrences systemTag (fullPrompt (transcript [] "list files")).data = 2 ∧
    ¬ (countOccurrences systemTag (fullPrompt (transcript [] "list files")).data = 1) := by
  have hwf : WellFormed [] := by simp [WellFormed]
  have h2 : countOccurrences systemTag (fullPrompt (transcript [] "list files")).data = 2 :=
    (countOccurrences_fullPrompt [] "list files" hwf).trans (by decide)
  exact ⟨hwf, h2, by rw [h2]; decide⟩

end Buddy
